import Mathlib

set_option maxRecDepth 100000

/-!
Verification development for a structural-repair tool consisting of two Python
scripts, `fix_class_methods.py` (the multi-method variant) and
`fix_all_class_methods.py` (the single-method variant).  Each script's
`fix_file` reads a file, detects a "misplaced method after a class" signature
with a regular expression, resolves boundaries with brace-count scans, and
splices the text.  The pure text transformation of each `fix_file` is embedded
here over `List Char`; file contents are ASCII, so Python's `\s` and `\w`
classes coincide with the ASCII sets used below.  The concrete regular
expressions of the scripts are compiled by hand into deterministic scanners:
for these patterns greedy backtracking is determinate, because every `\s*`
or `\s+` item is followed by a non-whitespace token, so each whitespace item
consumes a maximal whitespace run, and `(\s*)\}` succeeds exactly when the
first non-whitespace character after the anchor is the brace.
-/

/-- Python `\s` on ASCII text: space, tab, newline, carriage return,
vertical tab, form feed. -/
def pyIsSpace (c : Char) : Bool :=
  c = ' ' || c = '\t' || c = '\n' || c = '\r' || c = '\x0b' || c = '\x0c'

/-- Python `\w` on ASCII text. -/
def pyIsWord (c : Char) : Bool :=
  c.isAlpha || c.isDigit || c = '_'

/-- Characters of a string literal. -/
def strL (s : String) : List Char := s.data

/-- Length of the maximal leading whitespace run. -/
def wsRunLen : List Char → Nat
  | [] => 0
  | c :: t => if pyIsSpace c then wsRunLen t + 1 else 0

/-- Length of the maximal leading `\w` run. -/
def wordRunLen : List Char → Nat
  | [] => 0
  | c :: t => if pyIsWord c then wordRunLen t + 1 else 0

/-- Python `content.split('\n')`. -/
def splitNl : List Char → List (List Char)
  | [] => [[]]
  | c :: t =>
    match splitNl t with
    | [] => [[c]]
    | l :: ls => if c = '\n' then [] :: l :: ls else (c :: l) :: ls

/-- Python `'\n'.join(lines)`. -/
def joinNl : List (List Char) → List Char
  | [] => []
  | [l] => l
  | l :: l' :: ls => l ++ '\n' :: joinNl (l' :: ls)

/-- `line.count('{') - line.count('}')` as used by both brace scanners. -/
def braceDelta (l : List Char) : Int :=
  (l.count '\x7b' : Int) - (l.count '\x7d' : Int)

/-- Total `{`-minus-`}` balance of a text. -/
def braceBalance (s : List Char) : Int :=
  (s.count '\x7b' : Int) - (s.count '\x7d' : Int)

/-- `p` is a position where multiline `^` matches: offset 0 or just after a
newline. -/
def isLineStart (s : List Char) (p : Nat) : Bool :=
  p = 0 || s.get? (p - 1) = some '\n'

/-- Substring test, Python `pat in line`. -/
def containsSub (pat : List Char) : List Char → Bool
  | [] => pat.isPrefixOf []
  | c :: t => pat.isPrefixOf (c :: t) || containsSub pat t

/-- Rightmost index `i` in `w` with `w[i] = w[i+1] = '\n'` and at least one
character after the pair: the split point chosen by greedy `\s*\n\n(\s+)`
inside a whitespace run. -/
def lastNlNl : List Char → Option Nat
  | '\n' :: '\n' :: c :: t =>
    (match lastNlNl ('\n' :: c :: t) with
     | some i => some (i + 1)
     | none => some 0)
  | _ :: t => (lastNlNl t).map (fun i => i + 1)
  | [] => none

/-- Rightmost index of `'\n'` in a list, the end position chosen by a greedy
trailing `\s*\n`. -/
def lastNlIdx : List Char → Option Nat
  | [] => none
  | c :: t =>
    (match lastNlIdx t with
     | some i => some (i + 1)
     | none => if c = '\n' then some 0 else none)

/-! ## Multi-method variant (`fix_class_methods.py`) -/

/-- A match of the detector pattern
`^(\s*)\}\s*\n\n(\s+)(getSelfAwarenessStatus|healthCheck)\(\)\s*\{`:
`start` is `match.start()`, `g2` is `match.start(2)` (the start of the
whitespace group preceding the method name), `mend` is `match.end()`. -/
structure M1 where
  start : Nat
  g2 : Nat
  mend : Nat
deriving DecidableEq, Repr

/-- The `(getSelfAwarenessStatus|healthCheck)` alternation: length of the
matched name. -/
def p1Name (t : List Char) : Option Nat :=
  if List.isPrefixOf (strL ("getSelfAwarenessStatus")) t then some 22
  else if List.isPrefixOf (strL ("healthCheck")) t then some 11
  else none

/-- The `\(\)\s*\{` suffix of the detector pattern: number of characters it
consumes. -/
def p1Paren : List Char → Option Nat
  | '(' :: ')' :: r =>
    (match r.drop (wsRunLen r) with
     | '\x7b' :: _ => some (2 + wsRunLen r + 1)
     | _ => none)
  | _ => none

/-- Attempt the multi-method detector pattern at offset `p` (multiline `^`
anchored). -/
def matchP1At (s : List Char) (p : Nat) : Option M1 :=
  if isLineStart s p then
    match (s.drop p).drop (wsRunLen (s.drop p)) with
    | '\x7d' :: rest =>
      (match lastNlNl (rest.take (wsRunLen rest)) with
       | some i =>
         (match p1Name (rest.drop (wsRunLen rest)) with
          | some nl =>
            (match p1Paren ((rest.drop (wsRunLen rest)).drop nl) with
             | some al =>
               some ⟨p, p + wsRunLen (s.drop p) + 1 + i + 2,
                     p + wsRunLen (s.drop p) + 1 + wsRunLen rest + nl + al⟩
             | none => none)
          | none => none)
       | none => none)
    | _ => none
  else none

/-- `re.finditer` scan: leftmost matches, resuming after each match end. -/
def findAll1Go (s : List Char) (p : Nat) : Nat → List M1
  | 0 => []
  | fuel + 1 =>
    if p ≤ s.length then
      match matchP1At s p with
      | some m => m :: findAll1Go s (max m.mend (p + 1)) fuel
      | none => findAll1Go s (p + 1) fuel
    else []

/-- All matches of the multi-method detector, in document order. -/
def findAll1 (s : List Char) : List M1 :=
  findAll1Go s 0 (s.length + 1)

/-- One position of the class-end search
`re.search(r'^(\s*)\}(\s*)$', before_class_end[::-1], re.MULTILINE)`:
`t` is the reversed prefix, `q` a candidate offset in it. -/
def revBraceMatchAt (t : List Char) (q : Nat) : Bool :=
  isLineStart t q &&
  (match (t.drop q).drop (wsRunLen (t.drop q)) with
   | '\x7d' :: rest =>
     (rest.take (wsRunLen rest)).contains '\n' || (rest.drop (wsRunLen rest)).isEmpty
   | _ => false)

/-- Leftmost position in the reversed prefix where the class-end pattern
matches. -/
def revBraceGo (t : List Char) (q : Nat) : Nat → Option Nat
  | 0 => none
  | fuel + 1 =>
    if q ≤ t.length then
      if revBraceMatchAt t q then some q else revBraceGo t (q + 1) fuel
    else none

/-- `class_end_match.start()` of the reversed-string search. -/
def revBraceSearch (t : List Char) : Option Nat :=
  revBraceGo t 0 (t.length + 1)

/-- The forward method-end scan of the multi-method variant: running
per-line count of `{` minus `}` starting at 0 on the declaration line; stop
at the first line where the count is zero and the line contains `}`.
Returns the line index (`method_end_line`), `none` when the loop never
breaks. -/
def scan1Go : List (List Char) → Int → Nat → Option Nat
  | [], _, _ => none
  | l :: rest, bc, i =>
    if bc + braceDelta l = 0 ∧ l.contains '\x7d' = true then some i
    else scan1Go rest (bc + braceDelta l) (i + 1)

/-- `method_end_line` scan of the multi-method variant. -/
def scan1 (lines : List (List Char)) : Option Nat :=
  scan1Go lines 0 0

/-- `'    ' + line if line.strip() else line`. -/
def indentLine (l : List Char) : List Char :=
  if l.any (fun c => !(pyIsSpace c)) then ' ' :: ' ' :: ' ' :: ' ' :: l else l

/-- Outcome of one iteration of the multi-method variant's match loop. -/
inductive Ev1 where
  | fixedM
  | noMethodEnd
  | noClassEnd
deriving DecidableEq, Repr

/-- The spliced text of one successful iteration:
`content[:insertion_point] + '\n' + method_indented + '\n' +
content[insertion_point:method_start_pos] + content[method_full_end:]`. -/
def step1Build (content : List Char) (m : M1) (mel q : Nat) : List Char :=
  let methodLines := (splitNl (content.drop m.g2)).take (mel + 1)
  let mfe := m.g2 + (joinNl methodLines).length
  let ip := m.start - q
  (content.take ip) ++ '\n' :: (joinNl (methodLines.map indentLine))
    ++ '\n' :: ((content.drop ip).take (m.g2 - ip)) ++ content.drop mfe

/-- One iteration of the multi-method variant's loop over a match:
method-end scan (failure when the loop never breaks or breaks at line 0),
then the reversed-string class-end search, then the splice. -/
def step1 (content : List Char) (m : M1) : List Char × Ev1 :=
  match scan1 (splitNl (content.drop m.g2)) with
  | none => (content, Ev1.noMethodEnd)
  | some 0 => (content, Ev1.noMethodEnd)
  | some (Nat.succ k) =>
    match revBraceSearch ((content.take m.start).reverse) with
    | none => (content, Ev1.noClassEnd)
    | some q => (step1Build content m (Nat.succ k) q, Ev1.fixedM)

/-- The reversed-order loop over all matches, applied to the same working
copy; returns the final text and the per-match outcomes. -/
def fixClassLoop : List Char → List M1 → List Char × List Ev1
  | content, [] => (content, [])
  | content, m :: ms =>
    match step1 content m with
    | (c', e) =>
      match fixClassLoop c' ms with
      | (c'', es) => (c'', e :: es)

/-- Result of the multi-method variant's `fix_file` on one text: whether the
file is rewritten (the function's boolean return), the text written, and the
per-match outcomes. -/
structure RunResult where
  changed : Bool
  content : List Char
  events : List Ev1
deriving DecidableEq, Repr

/-- The whole text transformation of `fix_file` in `fix_class_methods.py`:
find all matches in the original text, process them in reverse document
order on the working copy, write the result (the file is written whenever at
least one match was found, even if every match failed). -/
def fixClassRun (content : List Char) : RunResult :=
  match findAll1 content with
  | [] => ⟨false, content, []⟩
  | m :: ms =>
    match fixClassLoop content ((m :: ms).reverse) with
    | (c', es) => ⟨true, c', es⟩

/-! ## Single-method variant (`fix_all_class_methods.py`) -/

/-- The `^(\s*)\}\s*\n\s*export\s+default` prefix used both inside the full
detector pattern and as the separate `class_end_match` search; returns the
offset just past `default` on success. -/
def matchBraceExportAt (s : List Char) (p : Nat) : Option Nat :=
  if isLineStart s p then
    match (s.drop p).drop (wsRunLen (s.drop p)) with
    | '\x7d' :: rest =>
      if (rest.take (wsRunLen rest)).contains '\n' = true then
        if List.isPrefixOf (strL ("export")) (rest.drop (wsRunLen rest)) then
          (let r2 := (rest.drop (wsRunLen rest)).drop 6
           if 0 < wsRunLen r2 ∧ List.isPrefixOf (strL ("default")) (r2.drop (wsRunLen r2)) then
             some (p + wsRunLen (s.drop p) + 1 + wsRunLen rest + 6 + wsRunLen r2 + 7)
           else none)
        else none
      else none
    | _ => none
  else none

/-- `getSelfAwarenessStatus\(\)\s*\{` at the front of `u`. -/
def p2NameAt (u : List Char) : Bool :=
  List.isPrefixOf (strL ("getSelfAwarenessStatus")) u &&
  (match u.drop 22 with
   | '(' :: ')' :: r =>
     (match r.drop (wsRunLen r) with
      | '\x7b' :: _ => true
      | _ => false)
   | _ => false)

/-- Lazy `[\s\S]*?\*\/\s*\n\s*` followed by the method name: try every
`*/` occurrence from the left until the continuation succeeds. -/
def tryDocFrom : List Char → Bool
  | [] => false
  | '*' :: rest =>
    (match rest with
     | '/' :: r2 =>
       (((r2.take (wsRunLen r2)).contains '\n' &&
         p2NameAt (r2.drop (wsRunLen r2))) || tryDocFrom rest)
     | _ => tryDocFrom rest)
  | _ :: rest => tryDocFrom rest

/-- The optional doc-comment group followed by the method name:
`(\/\*\*[\s\S]*?\*\/\s*\n\s*)?getSelfAwarenessStatus\(\)\s*\{`. -/
def p2Tail (u : List Char) : Bool :=
  (match u with
   | '/' :: '*' :: '*' :: r => tryDocFrom r
   | _ => false) || p2NameAt u

/-- The part of the full detector pattern after `default`:
`\s+\w+;\s*\n\s*\n\s*` then the optional doc comment and the name. -/
def p2Rest (t : List Char) : Bool :=
  if 0 < wsRunLen t ∧ 0 < wordRunLen (t.drop (wsRunLen t)) then
    match (t.drop (wsRunLen t)).drop (wordRunLen (t.drop (wsRunLen t))) with
    | ';' :: rest =>
      if 2 ≤ (rest.take (wsRunLen rest)).count '\n' then
        p2Tail (rest.drop (wsRunLen rest))
      else false
    | _ => false
  else false

/-- The full single-method detector pattern
`^(\s*)\}\s*\n\s*export\s+default\s+\w+;\s*\n\s*\n\s*(\/\*\*[\s\S]*?\*\/\s*\n\s*)?getSelfAwarenessStatus\(\)\s*\{`
tested at offset `p`. -/
def matchP2At (s : List Char) (p : Nat) : Bool :=
  match matchBraceExportAt s p with
  | none => false
  | some e => p2Rest (s.drop e)

/-- `re.search` scan for the full detector pattern: leftmost start. -/
def searchP2Go (s : List Char) (p : Nat) : Nat → Option Nat
  | 0 => none
  | fuel + 1 =>
    if p ≤ s.length then
      if matchP2At s p then some p else searchP2Go s (p + 1) fuel
    else none

/-- `match.start()` of the full single-method detector pattern. -/
def searchP2 (s : List Char) : Option Nat :=
  searchP2Go s 0 (s.length + 1)

/-- `re.search` scan for the class-end prefix pattern: leftmost start. -/
def searchBEGo (s : List Char) (p : Nat) : Nat → Option Nat
  | 0 => none
  | fuel + 1 =>
    if p ≤ s.length then
      match matchBraceExportAt s p with
      | some _ => some p
      | none => searchBEGo s (p + 1) fuel
    else none

/-- `class_end_pos = re.search(r'^(\s*)\}\s*\n\s*export\s+default', content,
re.MULTILINE).start()`. -/
def searchBraceExport (s : List Char) : Option Nat :=
  searchBEGo s 0 (s.length + 1)

/-- Python `'getSelfAwarenessStatus()' in line`. -/
def hasToken (l : List Char) : Bool :=
  containsSub (strL ("getSelfAwarenessStatus()")) l

/-- The forward method-end scan of the single-method variant: every line
containing the token resets the count to 1 and skips its own braces; other
lines update the count only while it is positive; stop when it reaches 0. -/
def scan2Go : List (List Char) → Int → Nat → Option Nat
  | [], _, _ => none
  | l :: rest, bc, i =>
    if hasToken l then scan2Go rest 1 (i + 1)
    else if 0 < bc then
      (if bc + braceDelta l = 0 then some i
       else scan2Go rest (bc + braceDelta l) (i + 1))
    else scan2Go rest bc (i + 1)

/-- `method_end_line` scan of the single-method variant. -/
def scan2 (lines : List (List Char)) : Option Nat :=
  scan2Go lines 0 0

/-- The method-extraction loop: append lines from the first token line on,
stopping after line `mel`. -/
def collectGo : List (List Char) → Nat → Nat → Bool → List (List Char)
  | [], _, _, _ => []
  | l :: rest, i, mel, found =>
    if (found || hasToken l) = true then
      l :: (if i = mel then [] else collectGo rest (i + 1) mel true)
    else collectGo rest (i + 1) mel false

/-- `method_lines` of the single-method variant. -/
def collectMethodLines (lines : List (List Char)) (mel : Nat) : List (List Char) :=
  collectGo lines 0 mel false

/-- `re.search(r'\n\s*export\s+default\s+\w+;\s*\n', tail)` tested at offset
`p` of the tail; returns the match end offset. -/
def matchExportAt (s : List Char) (p : Nat) : Option Nat :=
  match s.drop p with
  | '\n' :: rest =>
    if List.isPrefixOf (strL ("export")) (rest.drop (wsRunLen rest)) then
      (let r2 := (rest.drop (wsRunLen rest)).drop 6
       if 0 < wsRunLen r2 ∧ List.isPrefixOf (strL ("default")) (r2.drop (wsRunLen r2)) then
         (let r3 := (r2.drop (wsRunLen r2)).drop 7
          let r4 := r3.drop (wsRunLen r3)
          if 0 < wsRunLen r3 ∧ 0 < wordRunLen r4 then
            match r4.drop (wordRunLen r4) with
            | ';' :: r5 =>
              (match lastNlIdx (r5.take (wsRunLen r5)) with
               | some j =>
                 some (p + 1 + wsRunLen rest + 6 + wsRunLen r2 + 7 + wsRunLen r3
                       + wordRunLen r4 + 1 + j + 1)
               | none => none)
            | _ => none
          else none)
       else none)
    else none
  | _ => none

/-- Leftmost match of the export-swallow pattern; returns `export_match.end()`. -/
def searchExportGo (s : List Char) (p : Nat) : Nat → Option Nat
  | 0 => none
  | fuel + 1 =>
    if p ≤ s.length then
      match matchExportAt s p with
      | some e => some e
      | none => searchExportGo s (p + 1) fuel
    else none

/-- `export_match.end()` on the tail after the method, if any. -/
def searchExportEnd (s : List Char) : Option Nat :=
  searchExportGo s 0 (s.length + 1)

/-- Outcome of the single-method variant's `fix_file`. -/
inductive Ev2 where
  | noIssues
  | noClassEnd
  | noMethodEnd
  | fixedA
deriving DecidableEq, Repr

/-- The spliced text of a successful single-method fix:
`content[:class_end_pos] + '\n' + method_indented + '\n' +
content[class_end_pos:method_full_start] + content[method_full_end:]`,
with `method_full_start = match.start()` and `method_full_end` extended past
a following export statement when one is found. -/
def fixAllBuild (content : List Char) (mstart cep mel : Nat) : List Char :=
  let lam := splitNl (content.drop mstart)
  let mfe0 := mstart + (joinNl (lam.take (mel + 1))).length
  let mfe :=
    match searchExportEnd (content.drop mfe0) with
    | some e => mfe0 + e
    | none => mfe0
  (content.take cep) ++ '\n' :: (joinNl ((collectMethodLines lam mel).map indentLine))
    ++ '\n' :: ((content.drop cep).take (mstart - cep)) ++ content.drop mfe

/-- Result of the single-method variant's `fix_file` on one text. -/
structure AllResult where
  content : List Char
  event : Ev2
deriving DecidableEq, Repr

/-- The whole text transformation of `fix_file` in
`fix_all_class_methods.py`: detector search, separate class-end search,
method-end scan, splice.  On every failure path the original text is kept. -/
def fixAllRun (content : List Char) : AllResult :=
  match searchP2 content with
  | none => ⟨content, Ev2.noIssues⟩
  | some mstart =>
    match searchBraceExport content with
    | none => ⟨content, Ev2.noClassEnd⟩
    | some cep =>
      match scan2 (splitNl (content.drop mstart)) with
      | none => ⟨content, Ev2.noMethodEnd⟩
      | some 0 => ⟨content, Ev2.noMethodEnd⟩
      | some (Nat.succ k) => ⟨fixAllBuild content mstart cep (Nat.succ k), Ev2.fixedA⟩

/-! ## Concrete inputs used by the claims -/

/-- Scenario A of the specification: a class, an export-default statement,
then a misplaced method. -/
def scenA : List Char :=
  strL ("class Foo \x7b\n  bar()\x7b\x7d\n\x7d\nexport default Foo;\n\ngetSelfAwarenessStatus() \x7b\n  return 1;\n\x7d\n")

/-- Scenario C of the specification: detector matches but the method's brace
count never returns to zero before end of file. -/
def scenC : List Char :=
  strL ("\x7d\nexport default Foo;\n\ngetSelfAwarenessStatus() \x7b\n  x;\n")

/-- Scenario D of the specification: two qualifying misplaced methods after
the same class. -/
def scenD : List Char :=
  strL ("class Foo \x7b\n  bar() \x7b\n    x;\n  \x7d\n\x7d\n\n  healthCheck() \x7b\n    h;\n  \x7d\n\n  getSelfAwarenessStatus() \x7b\n    g;\n  \x7d\n")

/-- Two matches, the later one with an unclosed method body: the failing
match is skipped while the other is still applied. -/
def c2x : List Char :=
  strL ("class Foo \x7b\n  bar() \x7b\n    x;\n  \x7d\n\x7d\n\n  healthCheck() \x7b\n    h;\n  \x7d\n\n  getSelfAwarenessStatus() \x7b\n    g;\n")

/-- A class with nested scopes and one misplaced method: after a successful
first fix, the relocated method matches the signature again. -/
def c7x : List Char :=
  strL ("class A \x7b\n  inner() \x7b\n    deep() \x7b\n      z;\n    \x7d\n  \x7d\n\x7d\n\n  healthCheck() \x7b\n    y;\n  \x7d\n")

/-- A one-line method whose braces both sit on the declaration line,
followed by a stray closing brace on a later line. -/
def c10x : List Char :=
  strL ("\x7d\nexport default Foo;\n\ngetSelfAwarenessStatus() \x7b return 1; \x7d\n\x7d\n")

/-- A one-line method for the multi-method variant. -/
def c10y : List Char :=
  strL ("class Foo \x7b\n  bar() \x7b\n    x;\n  \x7d\n\x7d\n\n  healthCheck() \x7b\x7d\n")

/-- A misplaced method whose end line carries text after the balancing
brace. -/
def scenE : List Char :=
  strL ("class Foo \x7b\n  bar() \x7b\n    x;\n  \x7d\n\x7d\n\n  healthCheck() \x7b\n    h;\n  \x7d extra\n")

/-- A clean input that matches neither detector. -/
def cClean : List Char :=
  strL ("class Foo \x7b\n  bar()\x7b\x7d\n\x7d\n")

/-! ## Claim theorems -/

/-- C1: on the Scenario A input, the single-method variant does not produce
the specified output: the rewrite deletes the class-closing brace line and
the export-default statement instead of preserving them; the method is
re-indented and the post-class occurrence removed, but no closing brace of
the class and no export statement remain in the output. -/
theorem c1_scenarioA_eval :
    (fixAllRun scenA).event = Ev2.fixedA ∧
    (fixAllRun scenA).content =
      strL ("class Foo \x7b\n  bar()\x7b\x7d\n\n    getSelfAwarenessStatus() \x7b\n      return 1;\n    \x7d\n\n") ∧
    containsSub (strL ("export")) ((fixAllRun scenA).content) = false ∧
    scenA.getD 22 ' ' = '\x7d' := by decide

/-- C3: on the Scenario A input the single-method variant changes the brace
balance from 0 to 1: the class-closing brace is deleted by the splice, so
the count of opening minus closing braces is not preserved. -/
theorem c3_braceBalance_eval :
    braceBalance scenA = 0 ∧ braceBalance ((fixAllRun scenA).content) = 1 := by decide

/-- C5: on the Scenario A input, `methodStartPos` of the single-method
variant is `match.start() = 22`, the start of the class-closing-brace line,
while the method's name token begins at offset 45: the removed region starts
at the class-closing brace, not at the name token. -/
theorem c5_methodStart_eval :
    searchP2 scenA = some 22 ∧
    List.isPrefixOf (strL ("getSelfAwarenessStatus")) (scenA.drop 45) = true ∧
    scenA.getD 22 ' ' = '\x7d' := by decide

/-- C6: on a Scenario D input with two qualifying misplaced methods, the
multi-method variant does not relocate both methods above the class-closing
brace in their original order: the final output has
getSelfAwarenessStatus moved twice (ending inside the class with doubled
indentation) and healthCheck still outside the class at its original
indentation, even though both iterations report a fix. -/
theorem c6_scenarioD_eval :
    (fixClassRun scenD).events = [Ev1.fixedM, Ev1.fixedM] ∧
    (fixClassRun scenD).content =
      strL ("class Foo \x7b\n  bar() \x7b\n    x;\n  \x7d\n\n          getSelfAwarenessStatus() \x7b\n            g;\n          \x7d\n\x7d\n\n\n\n  healthCheck() \x7b\n    h;\n  \x7d\n\n\n") ∧
    containsSub (strL ("\n  healthCheck() \x7b")) ((fixClassRun scenD).content) = true := by decide

/-- C7 counterexample: a successful first run of the multi-method variant
whose output is changed again by a second run (the relocated method matches
the signature again and is moved deeper). -/
theorem c7_idempotence_cex :
    (fixClassRun c7x).events = [Ev1.fixedM] ∧
    (fixClassRun ((fixClassRun c7x).content)).content ≠ (fixClassRun c7x).content := by decide

/-- C7 amended, positive part: on Scenario A the single-method variant's
second run finds no match and returns the first run's output unchanged. -/
theorem c7_amended :
    fixAllRun ((fixAllRun scenA).content) = ⟨(fixAllRun scenA).content, Ev2.noIssues⟩ := by decide

/-- C2 counterexample: a file with two detector matches where one match's
boundary resolution fails (its brace count never returns to zero): the
multi-method variant reports the failure yet still writes the other match's
edit, so the file is not left unchanged. -/
theorem c2_partial_edit_cex :
    Ev1.noMethodEnd ∈ (fixClassRun c2x).events ∧
    (fixClassRun c2x).changed = true ∧
    (fixClassRun c2x).content ≠ c2x := by decide

/-- C4 counterexample: in the multi-method variant, the match on `scenE` has
its end line carrying text after the balancing brace; `methodEndPos`
(`m.g2` plus the length of the joined method lines, here 36 + 34) points
just past that trailing text, and the character before it is not the
balancing closing brace (which sits at offset 63). -/
theorem c4_methodEnd_cex :
    findAll1 scenE = [⟨33, 36, 53⟩] ∧
    scan1 (splitNl (scenE.drop 36)) = some 2 ∧
    (joinNl ((splitNl (scenE.drop 36)).take 3)).length = 34 ∧
    scenE.getD 63 ' ' = '\x7d' ∧
    scenE.getD (36 + 34 - 1) ' ' ≠ '\x7d' := by decide

/-- C9 counterexample: on Scenario A the single-method variant transforms
the file, and the resolved insertion point (`class_end_pos = 22`) equals the
start of the removed method span (`method_full_start = match.start() = 22`),
so it does not strictly precede it. -/
theorem c9_strict_cex :
    (fixAllRun scenA).event = Ev2.fixedA ∧
    searchBraceExport scenA = some 22 ∧ searchP2 scenA = some 22 := by decide

/-- C10 counterexample: a one-line method (both braces on its declaration
line) followed by a stray closing brace on a later line is relocated by the
single-method variant instead of falling into the could-not-find-method-end
branch: the scan ignores the declaration line's braces and reaches zero at
the stray brace. -/
theorem c10_oneline_cex :
    (fixAllRun c10x).event = Ev2.fixedA ∧
    (fixAllRun c10x).content =
      strL ("\n    getSelfAwarenessStatus() \x7b return 1; \x7d\n    \x7d\n\n") := by decide

/-- On every path that does not report a fix, the single-method variant
keeps the text. -/
theorem fixAllRun_content_eq_or_fixed (c : List Char) :
    (fixAllRun c).content = c ∨ (fixAllRun c).event = Ev2.fixedA := by
  unfold fixAllRun
  repeat' split
  all_goals simp

/-- On every path that does not report a fix, one iteration of the
multi-method variant keeps the text. -/
theorem step1_content_eq_or_fixed (c : List Char) (m : M1) :
    (step1 c m).1 = c ∨ (step1 c m).2 = Ev1.fixedM := by
  unfold step1
  repeat' split
  all_goals simp

/-- C2: amended.  In the single-method variant every boundary-resolution
failure (class end or method end not found) leaves the text unchanged, and
in the multi-method variant an iteration that fails to resolve a boundary
leaves the working copy unchanged; but the multi-method variant does not
abort the whole file, so the file is guaranteed unchanged only when every
match of it fails (a failing match can coexist with another match whose edit
is written). -/
theorem c2_amended :
    (∀ c : List Char, (fixAllRun c).event ≠ Ev2.fixedA → (fixAllRun c).content = c) ∧
    (∀ (c : List Char) (m : M1), (step1 c m).2 ≠ Ev1.fixedM → (step1 c m).1 = c) ∧
    (∀ (c : List Char) (ms : List M1),
        (fixClassLoop c ms).2.all (fun e => e != Ev1.fixedM) = true →
        (fixClassLoop c ms).1 = c) := by
  refine ⟨?_, ?_, ?_⟩
  · intro c h
    exact (fixAllRun_content_eq_or_fixed c).resolve_right h
  · intro c m h
    exact (step1_content_eq_or_fixed c m).resolve_right h
  · intro c ms
    induction ms generalizing c with
    | nil =>
      intro _
      rfl
    | cons m ms ih =>
      intro h
      rcases hs : step1 c m with ⟨c1, e⟩
      rcases hl : fixClassLoop c1 ms with ⟨c2, es⟩
      have hval : fixClassLoop c (m :: ms) = (c2, e :: es) := by
        simp [fixClassLoop, hs, hl]
      rw [hval] at h ⊢
      simp only [List.all_cons, Bool.and_eq_true, bne_iff_ne, ne_eq] at h
      have hc1 : c1 = c := by
        have h0 := (step1_content_eq_or_fixed c m).resolve_right
          (by rw [hs]; simpa using h.1)
        rw [hs] at h0
        exact h0
      have hc2 : c2 = c1 := by
        have h0 := ih c1 (by rw [hl]; exact h.2)
        rw [hl] at h0
        exact h0
      show c2 = c
      rw [hc2, hc1]

/-- C2 amended, witness: on Scenario C the single-method variant reports a
method-end failure and keeps the text; the failing iteration of the
multi-method variant on the two-match input keeps the working copy; an empty
match list keeps the text. -/
theorem c2_amended_witness :
    (fixAllRun scenC).content = scenC ∧
    (step1 c2x ⟨61, 66, 94⟩).1 = c2x ∧
    (fixClassLoop scenC []).1 = scenC :=
  ⟨c2_amended.1 scenC (by decide), c2_amended.2.1 c2x ⟨61, 66, 94⟩ (by decide),
   c2_amended.2.2 scenC [] (by decide)⟩

/-- C8: if the detector of a variant finds no match, that variant returns
the text unchanged and reports no issues, running no further stages. -/
theorem c8_no_match_unchanged : ∀ c : List Char,
    (findAll1 c = [] → fixClassRun c = ⟨false, c, []⟩) ∧
    (searchP2 c = none → fixAllRun c = ⟨c, Ev2.noIssues⟩) := by
  intro c
  constructor
  · intro h
    unfold fixClassRun
    rw [h]
  · intro h
    unfold fixAllRun
    rw [h]

/-- C8 witness: on the clean input neither variant changes anything. -/
theorem c8_no_match_unchanged_witness :
    fixClassRun cClean = ⟨false, cClean, []⟩ ∧ fixAllRun cClean = ⟨cClean, Ev2.noIssues⟩ :=
  ⟨(c8_no_match_unchanged cClean).1 (by decide), (c8_no_match_unchanged cClean).2 (by decide)⟩

/-- C10: amended.  In the multi-method variant a misplaced method whose
opening and closing braces both lie on its declaration line is never
relocated: the declaration line itself brings the running count to zero with
a brace present, the scan stops at line index 0, and the iteration takes the
could-not-find-method-end branch, leaving the text unchanged.  (The
single-method variant, by contrast, seeds the count at 1 and ignores the
declaration line's braces, so it fails only when no later line returns the
count to zero; a later stray closing brace makes it splice the one-line
method together with the following lines.) -/
theorem c10_amended : ∀ (c : List Char) (m : M1),
    braceDelta ((splitNl (c.drop m.g2)).headD []) = 0 →
    ((splitNl (c.drop m.g2)).headD []).contains '\x7d' = true →
    step1 c m = (c, Ev1.noMethodEnd) := by
  intro c m h1 h2
  have hs : scan1 (splitNl (c.drop m.g2)) = some 0 := by
    rcases hl : splitNl (c.drop m.g2) with _ | ⟨l, rest⟩
    · rw [hl] at h2
      simp at h2
    · rw [hl] at h1 h2
      simp only [List.headD_cons] at h1 h2
      unfold scan1 scan1Go
      rw [if_pos ⟨by simp [h1], h2⟩]
  unfold step1
  rw [hs]

/-- C10 amended, witness: the one-line method of `c10y` is rejected by the
multi-method variant's scan and the text is unchanged. -/
theorem c10_amended_witness :
    step1 c10y ⟨33, 36, 53⟩ = (c10y, Ev1.noMethodEnd) :=
  c10_amended c10y ⟨33, 36, 53⟩ (by decide) (by decide)

/-- Any match produced by the multi-method detector at `p` starts at `p` and
places the whitespace group strictly later. -/
theorem matchP1At_start_lt_g2 (s : List Char) (p : Nat) (m : M1)
    (h : matchP1At s p = some m) : m.start < m.g2 := by
  unfold matchP1At at h
  split at h
  · split at h
    · split at h
      · split at h
        · split at h
          · injection h with h'
            subst h'
            simp only []
            omega
          · exact Option.noConfusion h
        · exact Option.noConfusion h
      · exact Option.noConfusion h
    · exact Option.noConfusion h
  · exact Option.noConfusion h

/-- Every match returned by the finditer scan comes from the detector at
some position. -/
theorem findAll1Go_mem (s : List Char) : ∀ (fuel p : Nat) (m : M1),
    m ∈ findAll1Go s p fuel → ∃ p0, matchP1At s p0 = some m := by
  intro fuel
  induction fuel with
  | zero =>
    intro p m h
    simp [findAll1Go] at h
  | succ f ih =>
    intro p m h
    unfold findAll1Go at h
    split at h
    · split at h
      · rcases List.mem_cons.mp h with h1 | h1
        · subst h1
          exact ⟨p, by assumption⟩
        · exact ih _ m h1
      · exact ih _ m h
    · simp at h

/-- The detector-pattern search only returns positions where the pattern
matches. -/
theorem searchP2Go_sound (s : List Char) : ∀ (fuel p q : Nat),
    searchP2Go s p fuel = some q → matchP2At s q = true := by
  intro fuel
  induction fuel with
  | zero =>
    intro p q h
    exact Option.noConfusion h
  | succ f ih =>
    intro p q h
    unfold searchP2Go at h
    split at h
    · split at h
      · injection h with h'
        subst h'
        assumption
      · exact ih _ q h
    · exact Option.noConfusion h

/-- The class-end-prefix search returns the leftmost matching position: no
earlier position from the scan start matches. -/
theorem searchBEGo_min (s : List Char) : ∀ (fuel p q : Nat),
    searchBEGo s p fuel = some q →
    ∀ r, p ≤ r → r < q → matchBraceExportAt s r = none := by
  intro fuel
  induction fuel with
  | zero =>
    intro p q h
    exact Option.noConfusion h
  | succ f ih =>
    intro p q h r hpr hrq
    unfold searchBEGo at h
    split at h
    · split at h
      · injection h with h'
        subst h'
        omega
      · rcases Nat.lt_or_ge r (p + 1) with hr | hr
        · have : r = p := by omega
          subst this
          assumption
        · exact ih _ q h r hr hrq
    · exact Option.noConfusion h

/-- A full detector-pattern match implies a class-end-prefix match at the
same position. -/
theorem matchP2At_imp_BE (s : List Char) (p : Nat) (h : matchP2At s p = true) :
    matchBraceExportAt s p ≠ none := by
  intro hbe
  unfold matchP2At at h
  rw [hbe] at h
  exact Bool.noConfusion h

/-- C9: amended.  The resolved insertion point never exceeds the start of
the misplaced-method span: in the multi-method variant the insertion point
(`match.start()` minus the reversed-search offset) is strictly below
`match.start(2)`, the start of the removed span; in the single-method
variant the separately searched class-end position is at most
`match.start()`, the start of the removed span, with equality on inputs like
Scenario A where the detector match is the first brace-export occurrence. -/
theorem c9_amended :
    (∀ (s : List Char) (m : M1), m ∈ findAll1 s →
       ∀ (c : List Char) (q : Nat), revBraceSearch ((c.take m.start).reverse) = some q →
         m.start - q < m.g2) ∧
    (∀ (c : List Char) (p q : Nat), searchP2 c = some p → searchBraceExport c = some q →
       q ≤ p) := by
  constructor
  · intro s m hm c q _
    obtain ⟨p0, h0⟩ := findAll1Go_mem s (s.length + 1) 0 m hm
    have := matchP1At_start_lt_g2 s p0 m h0
    omega
  · intro c p q hp hq
    by_contra hqp
    have hlt : p < q := by omega
    have hnone := searchBEGo_min c (c.length + 1) 0 q hq p (Nat.zero_le p) hlt
    have hmatch := searchP2Go_sound c (c.length + 1) 0 p hp
    exact matchP2At_imp_BE c p hmatch hnone

/-- C9 amended, witness: on Scenario D the first match's insertion point
(33 - 0) lies strictly below its method-span start 36; on Scenario A the
class-end position 22 is at most the match start 22. -/
theorem c9_amended_witness :
    (⟨33, 36, 53⟩ : M1).start - 0 < (⟨33, 36, 53⟩ : M1).g2 ∧ (22 : Nat) ≤ 22 :=
  ⟨c9_amended.1 scenD ⟨33, 36, 53⟩ (by decide) scenD 0 (by decide),
   c9_amended.2 scenA 22 22 (by decide) (by decide)⟩

/-- Length of a newline join: the line lengths plus one separator between
consecutive lines. -/
theorem joinNl_length (L : List (List Char)) (h : L ≠ []) :
    (joinNl L).length = (L.map List.length).sum + (L.length - 1) := by
  induction L with
  | nil => exact absurd rfl h
  | cons l ls ih =>
    cases ls with
    | nil => simp [joinNl]
    | cons l' ls' =>
      have ih' := ih (by simp)
      simp only [joinNl, List.length_append, List.length_cons, List.map_cons,
        List.sum_cons] at ih' ⊢
      omega

/-- Characterisation of the multi-method variant's method-end scan: it
returns the first index at or after the start whose cumulative per-line
brace count (from the given seed) is zero with a closing brace on the
line. -/
theorem scan1Go_spec : ∀ (lines : List (List Char)) (bc : Int) (i k : Nat),
    scan1Go lines bc i = some k →
    i ≤ k ∧ k - i < lines.length ∧
    bc + ((lines.take (k - i + 1)).map braceDelta).sum = 0 ∧
    (lines.getD (k - i) []).contains '\x7d' = true ∧
    ∀ j, j < k - i → ¬(bc + ((lines.take (j + 1)).map braceDelta).sum = 0 ∧
                        (lines.getD j []).contains '\x7d' = true) := by
  intro lines
  induction lines with
  | nil =>
    intro bc i k h
    exact Option.noConfusion h
  | cons l rest ih =>
    intro bc i k h
    unfold scan1Go at h
    by_cases hcond : bc + braceDelta l = 0 ∧ l.contains '\x7d' = true
    · rw [if_pos hcond] at h
      injection h with h'
      subst h'
      have h1 := hcond.1
      refine ⟨Nat.le_refl i, by simp, ?_, ?_, ?_⟩
      · simp only [Nat.sub_self, List.take_succ_cons, List.take_zero, List.map_cons,
          List.map_nil, List.sum_cons, List.sum_nil]
        omega
      · simp only [Nat.sub_self, List.getD_cons_zero]
        exact hcond.2
      · intro j hj
        rw [Nat.sub_self] at hj
        exact absurd hj (Nat.not_lt_zero j)
    · rw [if_neg hcond] at h
      obtain ⟨s1, s2, s3, s4, s5⟩ := ih (bc + braceDelta l) (i + 1) k h
      have hd : k - i = (k - (i + 1)) + 1 := by omega
      refine ⟨by omega, ?_, ?_, ?_, ?_⟩
      · simp only [List.length_cons]
        omega
      · rw [hd]
        simp only [List.take_succ_cons, List.map_cons, List.sum_cons]
        omega
      · rw [hd]
        simp only [List.getD_cons_succ]
        exact s4
      · intro j hj
        cases j with
        | zero =>
          intro hcontra
          apply hcond
          refine ⟨?_, hcontra.2⟩
          have h0 := hcontra.1
          simp only [List.take_succ_cons, List.take_zero, List.map_cons, List.map_nil,
            List.sum_cons, List.sum_nil] at h0
          omega
        | succ j' =>
          intro hcontra
          apply s5 j' (by omega)
          constructor
          · have h0 := hcontra.1
            simp only [List.take_succ_cons, List.map_cons, List.sum_cons] at h0
            omega
          · have h0 := hcontra.2
            simp only [List.getD_cons_succ] at h0
            exact h0

/-- C4: amended.  In the multi-method variant, when the method-end scan
returns line `k`, that line is the first line whose cumulative per-line
count of braces (counting every brace of every line from the declaration
line on, with no seeding) is zero while the line contains a closing brace;
and `methodEndPos` is `methodStartPos` plus the length of the joined lines
up to `k`, i.e. the offset just past the last character of that whole end
line — not necessarily just past the balancing closing brace, which may be
followed by further text on the same line. -/
theorem c4_amended (lines : List (List Char)) (k : Nat) (h : scan1 lines = some k) :
    k < lines.length ∧
    ((lines.take (k + 1)).map braceDelta).sum = 0 ∧
    (lines.getD k []).contains '\x7d' = true ∧
    (∀ j, j < k → ¬(((lines.take (j + 1)).map braceDelta).sum = 0 ∧
                     (lines.getD j []).contains '\x7d' = true)) ∧
    (joinNl (lines.take (k + 1))).length = ((lines.take (k + 1)).map List.length).sum + k := by
  obtain ⟨s1, s2, s3, s4, s5⟩ := scan1Go_spec lines 0 0 k h
  rw [Nat.sub_zero] at s2 s3 s4 s5
  refine ⟨s2, by omega, s4, ?_, ?_⟩
  · intro j hj hcontra
    apply s5 j hj
    refine ⟨?_, hcontra.2⟩
    have h0 := hcontra.1
    omega
  · have hlen : (lines.take (k + 1)).length = k + 1 := by
      rw [List.length_take]
      omega
    have hne : lines.take (k + 1) ≠ [] := by
      intro hnil
      rw [hnil] at hlen
      simp at hlen
    have hj := joinNl_length (lines.take (k + 1)) hne
    rw [hlen] at hj
    simpa using hj

/-- C4 amended, witness: on the `scenE` match the scan stops at line 2, the
first line with zero cumulative count and a closing brace, and the join of
the three method lines has length 32 (line lengths) plus 2 (separators). -/
theorem c4_amended_witness :
    2 < (splitNl (scenE.drop 36)).length ∧
    (((splitNl (scenE.drop 36)).take 3).map braceDelta).sum = 0 ∧
    ((splitNl (scenE.drop 36)).getD 2 []).contains '\x7d' = true ∧
    (∀ j, j < 2 → ¬((((splitNl (scenE.drop 36)).take (j + 1)).map braceDelta).sum = 0 ∧
                     ((splitNl (scenE.drop 36)).getD j []).contains '\x7d' = true)) ∧
    (joinNl ((splitNl (scenE.drop 36)).take 3)).length =
      (((splitNl (scenE.drop 36)).take 3).map List.length).sum + 2 :=
  c4_amended (splitNl (scenE.drop 36)) 2 (by decide)
